import Mathlib

/-!
Verification of the InfiniteImages storage layer and conversion pipeline.

The definitions below are a shallow embedding of the Go sources:
* `internal/storage/storage.go` — the `ImageInfo` record, format and
  orientation vocabulary (`type ImageFormat string`, so formats and
  orientations are plain strings here as well);
* `internal/storage/local.go` — the local-filesystem backend; the file
  system is modelled as an association list from path to file content, and
  the metadata directory as an association list from id to `ImageInfo`
  (JSON marshal/unmarshal of a record is modelled as the identity on its
  fields).  Wall-clock time (`time.Now().UnixNano()`) is an explicit `Nat`
  input, and `time.Time` values are `Nat` nanoseconds with `0` as the zero
  value (`IsZero`).  `filepath.Join` is modelled as `/`-joining, which
  agrees with Go on the clean, slash-free components used by this code;
* `pkg/converter` — `GetImageInfo` (with `bounds.Dx()`/`bounds.Dy()`
  passed as explicit width/height arguments);
* `internal/api` — the storage-relevant slice of `UploadHandler`
  (the original save, the WebP save whose returned id the handler
  discards, and the metadata save) and of `UpdateTagsHandler`.
-/

namespace InfiniteImages

/-- The only storage error the pure model can produce, `ErrFileNotFound`
from `storage.go` (I/O failures of the host are outside the model). -/
inductive StorageErr where
  | fileNotFound
deriving DecidableEq, Repr

/-- `type ImageFormat string` in `storage.go`. -/
abbrev ImageFormat := String

/-- `type ImageOrientation string` in `storage.go`. -/
abbrev ImageOrientation := String

def Original : ImageFormat := "original"

def WebP : ImageFormat := "webp"

def AVIF : ImageFormat := "avif"

def Landscape : ImageOrientation := "landscape"

def Portrait : ImageOrientation := "portrait"

/-- The `ImageInfo` metadata record of `storage.go`.  `createdAt` and
`expiresAt` are nanosecond timestamps; `0` is Go's zero `time.Time`. -/
structure ImageInfo where
  id : String
  filename : String
  storagePath : String
  size : Int
  width : Int
  height : Int
  format : String
  orientation : String
  tags : List String
  createdAt : Nat
  expiresAt : Nat
  hasExpiry : Bool
deriving DecidableEq, Repr

/-- Association-list lookup, first binding wins (a directory has at most
one entry per name, so in well-formed states keys are distinct). -/
def fsLookup {α : Type} : List (String × α) → String → Option α
  | [], _ => none
  | (q, c) :: rest, p => if q = p then some c else fsLookup rest p

/-- `os.Create`/`os.WriteFile`: truncate the existing file or create a
new one. -/
def fsWrite {α : Type} : List (String × α) → String → α → List (String × α)
  | [], p, c => [(p, c)]
  | (q, d) :: rest, p, c =>
    if q = p then (p, c) :: rest else (q, d) :: fsWrite rest p c

/-- `os.Remove`: drop the binding for a path (the first one; in
well-formed states there is at most one). -/
def fsErase {α : Type} : List (String × α) → String → List (String × α)
  | [], _ => []
  | (q, d) :: rest, p => if q = p then rest else (q, d) :: fsErase rest p

/-- `filepath.Join` on the clean components this code uses. -/
def joinPath (a b : String) : String :=
  if a = "" then b else if b = "" then a else a ++ "/" ++ b

/-- `strings.ToLower`. -/
def strLower (s : String) : String := String.mk (s.data.map Char.toLower)

/-- Characters after the last `/` (the final path element). -/
def afterLastSlash (l : List Char) : List Char :=
  l.foldl (fun acc c => if c = '/' then [] else acc ++ [c]) []

/-- Suffix starting at the last `.`, empty if there is no dot. -/
def fromLastDot (l : List Char) : List Char :=
  l.foldl (fun acc c =>
    if c = '.' then ['.'] else if acc = [] then [] else acc ++ [c]) []

/-- `filepath.Ext`: the suffix beginning at the final dot in the final
slash-separated element, `""` if there is none. -/
def filepathExt (s : String) : String :=
  String.mk (fromLastDot (afterLastSlash s.data))

/-- The state of a `LocalStorage` backend: the base path of the receiver
plus the durable file-system contents it owns. -/
structure LocalState where
  basePath : String
  files : List (String × String)
  metadata : List (String × ImageInfo)
deriving DecidableEq, Repr

/-- `generateID`: `fmt.Sprintf("%d", time.Now().UnixNano())`, with the
nanosecond clock reading passed in explicitly. -/
def generateID (t : Nat) : String := toString t

/-- `<base>/original/<orientation>`, the directory of original variants. -/
def origDirOf (base orient : String) : String :=
  joinPath (joinPath base "original") orient

/-- `<base>/<format>/<orientation>/<id>.<format>`, the path of a
non-original variant as built by `Save`, `Get` and `Delete`. -/
def variantPathOf (base id fmt orient : String) : String :=
  joinPath (joinPath (joinPath base fmt) orient) (id ++ "." ++ strLower fmt)

/-- `LocalStorage.Save` (local.go:73).  A fresh id is generated from the
clock reading `t` on EVERY call, whatever the format; the caller has no
way to supply an id. -/
def save (s : LocalState) (t : Nat) (content filename : String)
    (format : ImageFormat) (orientation : ImageOrientation) :
    String × LocalState :=
  let id := generateID t
  let dirPath :=
    if format = Original then origDirOf s.basePath orientation
    else joinPath (joinPath s.basePath format) orientation
  let ext :=
    if format ≠ Original then "." ++ strLower format else filepathExt filename
  let filePath := joinPath dirPath (id ++ ext)
  (id, { s with files := fsWrite s.files filePath content })

/-- `filepath.Glob(dirPath, id ++ ".*")` membership test: the path starts
with `dirPath/id.` and the rest of the name contains no separator. -/
def globCheck (dirPath id p : String) : Bool :=
  let pre := joinPath dirPath id ++ "."
  pre.data.isPrefixOf p.data && !((p.data.drop pre.data.length).contains '/')

/-- The glob matches for an original variant: the stored paths that match
`<dirPath>/<id>.*`, in directory order. -/
def origMatches (files : List (String × String)) (dirPath id : String) :
    List String :=
  (files.map Prod.fst).filter (fun p => globCheck dirPath id p)

/-- `os.Remove` on the modelled file system: `ErrFileNotFound` when the
path does not exist (`os.IsNotExist`). -/
def osRemove (s : LocalState) (p : String) : Except StorageErr LocalState :=
  match fsLookup s.files p with
  | none => .error .fileNotFound
  | some _ => .ok { s with files := fsErase s.files p }

/-- `LocalStorage.Delete` (local.go:114): originals are resolved by the
glob (zero matches is `ErrFileNotFound`, the first match is removed),
other formats by their fixed variant path. -/
def delete (s : LocalState) (id : String) (format : ImageFormat)
    (orientation : ImageOrientation) : Except StorageErr LocalState :=
  if format = Original then
    match origMatches s.files (origDirOf s.basePath orientation) id with
    | [] => .error .fileNotFound
    | p :: _ => osRemove s p
  else
    osRemove s (variantPathOf s.basePath id format orientation)

/-- `LocalStorage.Get` (local.go:146): same path resolution as `Delete`,
returning the file content. -/
def get (s : LocalState) (id : String) (format : ImageFormat)
    (orientation : ImageOrientation) : Except StorageErr String :=
  if format = Original then
    match origMatches s.files (origDirOf s.basePath orientation) id with
    | [] => .error .fileNotFound
    | p :: _ =>
      match fsLookup s.files p with
      | none => .error .fileNotFound
      | some c => .ok c
  else
    match fsLookup s.files (variantPathOf s.basePath id format orientation) with
    | none => .error .fileNotFound
    | some c => .ok c

/-- `LocalStorage.GetURL` (local.go:178).  The receiver is taken as an
argument to mirror the Go method; the body reads nothing from it. -/
def getURL (_s : LocalState) (id : String) (format : ImageFormat)
    (orientation : ImageOrientation) : String :=
  if format = Original then
    "/static/images/original/" ++ orientation ++ "/" ++ id
  else
    "/static/images/" ++ format ++ "/" ++ orientation ++ "/" ++ id ++ "." ++
      strLower format

/-- `LocalStorage.GetInfo` (local.go:215). -/
def getInfo (s : LocalState) (id : String) : Except StorageErr ImageInfo :=
  match fsLookup s.metadata id with
  | none => .error .fileNotFound
  | some info => .ok info

/-- `LocalStorage.SaveInfo` (local.go:234): write
`metadata/<info.ID>.json`, truncating any existing record. -/
def saveInfo (s : LocalState) (info : ImageInfo) : LocalState :=
  { s with metadata := fsWrite s.metadata info.id info }

/-- `LocalStorage.DeleteInfo` (local.go:254). -/
def deleteInfo (s : LocalState) (id : String) : Except StorageErr LocalState :=
  match fsLookup s.metadata id with
  | none => .error .fileNotFound
  | some _ => .ok { s with metadata := fsErase s.metadata id }

/-- A best-effort `Delete` whose error is discarded, as in the expiry
sweep (`s.Delete(...)` with the result ignored, local.go:292). -/
def deleteBE (s : LocalState) (id : String) (format : ImageFormat)
    (orientation : ImageOrientation) : LocalState :=
  match delete s id format orientation with
  | .ok s2 => s2
  | .error _ => s

/-- A best-effort `DeleteInfo` whose error is discarded (local.go:297). -/
def deleteInfoBE (s : LocalState) (id : String) : LocalState :=
  match deleteInfo s id with
  | .ok s2 => s2
  | .error _ => s

/-- The expiry test of `CleanExpired` (local.go:290):
`info.HasExpiry && !info.ExpiresAt.IsZero() && info.ExpiresAt.Before(now)`. -/
def expiredCheck (now : Nat) (info : ImageInfo) : Bool :=
  info.hasExpiry && !(info.expiresAt == 0) && decide (info.expiresAt < now)

/-- One iteration of the `CleanExpired` loop body for one metadata file
name (local.go:278-301): re-read the record from the live state, skip on
error, and on expiry best-effort delete the three variants and the
record, then increment the count. -/
def cleanStep (now : Nat) (acc : Nat × LocalState) (id : String) :
    Nat × LocalState :=
  match fsLookup acc.2.metadata id with
  | none => acc
  | some info =>
    if expiredCheck now info then
      let s1 := deleteBE acc.2 id Original info.orientation
      let s2 := deleteBE s1 id WebP info.orientation
      let s3 := deleteBE s2 id AVIF info.orientation
      let s4 := deleteInfoBE s3 id
      (acc.1 + 1, s4)
    else acc

/-- The `CleanExpired` loop over the snapshot of metadata file names. -/
def cleanLoop (now : Nat) : List String → Nat × LocalState → Nat × LocalState
  | [], acc => acc
  | i :: rest, acc => cleanLoop now rest (cleanStep now acc i)

/-- `LocalStorage.CleanExpired` (local.go:268): `os.ReadDir` takes a
snapshot of the metadata directory listing, then the loop runs against
the evolving state. -/
def cleanExpired (s : LocalState) (now : Nat) : Nat × LocalState :=
  cleanLoop now (s.metadata.map Prod.fst) (0, s)

/-- The converter's `ImageInfo` (pkg/converter). -/
structure ConvInfo where
  width : Int
  height : Int
  format : String
  orientation : String
deriving DecidableEq, Repr

/-- `converter.GetImageInfo`: width and height are `bounds.Dx()` and
`bounds.Dy()`; orientation defaults to landscape and flips to portrait
exactly when height exceeds width. -/
def getImageInfo (width height : Int) (format : String) : ConvInfo :=
  let orientation := if height > width then "portrait" else "landscape"
  { width := width, height := height, format := format,
    orientation := orientation }

/-- The storage-relevant save sequence of `UploadHandler` for one file
(api handler lines 118-165): save the original (keeping its id), save the
WebP variant DISCARDING the id that `Save` returns for it, then save the
metadata record under the original's id. -/
def uploadSave (s : LocalState) (t1 t2 : Nat)
    (originalBytes webpBytes filename : String) (info : ConvInfo)
    (size : Int) (createdAt : Nat) : String × LocalState :=
  let r1 := save s t1 originalBytes filename Original info.orientation
  let id := r1.1
  let r2 := save r1.2 t2 webpBytes filename WebP info.orientation
  let imageInfo : ImageInfo :=
    { id := id
      filename := filename
      storagePath := joinPath "original" info.orientation
      size := size
      width := info.width
      height := info.height
      format := info.format
      orientation := info.orientation
      tags := []
      createdAt := createdAt
      expiresAt := 0
      hasExpiry := false }
  (id, saveInfo r2.2 imageInfo)

/-- The storage-relevant core of `UpdateTagsHandler` (images.go:250):
read the record, replace its tags, save it back. -/
def updateTags (s : LocalState) (id : String) (tags : List String) :
    Except StorageErr LocalState :=
  match getInfo s id with
  | .error e => .error e
  | .ok img => .ok (saveInfo s { img with tags := tags })

/-- A small backend state shared by witnesses: one original file and one
webp file for id `"x"`, nothing for id `"y"`. -/
def sampleState : LocalState :=
  { basePath := "b"
    files := [("b/original/landscape/x.png", "O"),
              ("b/webp/landscape/x.webp", "W")]
    metadata := [] }

/-- The upload sequence on an empty store, with the wall clock reading 1
at the original's `Save` and 2 at the WebP `Save` (two distinct
nanosecond readings, as on any real call sequence). -/
def c1Upload : String × LocalState :=
  uploadSave { basePath := "static/images", files := [], metadata := [] } 1 2
    "ORIGBYTES" "WEBPBYTES" "photo.jpg" (getImageInfo 100 50 "jpeg") 4 999

/-- A record with `hasExpiry = true` but the zero `expiresAt`. -/
def c2Info : ImageInfo :=
  { id := "a", filename := "f.png", storagePath := "original/landscape",
    size := 1, width := 3, height := 2, format := "png",
    orientation := "landscape", tags := [], createdAt := 5,
    expiresAt := 0, hasExpiry := true }

/-- A store holding `c2Info` and all three of its variant files. -/
def c2State : LocalState :=
  { basePath := "b"
    files := [("b/original/landscape/a.png", "O"),
              ("b/webp/landscape/a.webp", "W"),
              ("b/avif/landscape/a.avif", "A")]
    metadata := [("a", c2Info)] }

/-- The state after saving an original `photo.jpg` (clock reading 1, so
id `"1"`) into a store based at `static/images`, the path gin serves
under `/static`. -/
def c3State : LocalState :=
  (save { basePath := "static/images", files := [], metadata := [] } 1
    "BYTES" "photo.jpg" Original Landscape).2

/-- The classification the sweep applies to one metadata file name:
false when the record cannot be read, otherwise the expiry test. -/
def expiredCheckOpt (now : Nat) : Option ImageInfo → Bool
  | none => false
  | some info => expiredCheck now info

/-- An expired record (nonzero `expiresAt` in the past). -/
def c10Exp : ImageInfo :=
  { id := "e", filename := "e.png", storagePath := "original/landscape",
    size := 1, width := 3, height := 2, format := "png",
    orientation := "landscape", tags := [], createdAt := 5,
    expiresAt := 7, hasExpiry := true }

/-- A non-expired record. -/
def c10Fresh : ImageInfo :=
  { id := "n", filename := "n.png", storagePath := "original/landscape",
    size := 1, width := 3, height := 2, format := "png",
    orientation := "landscape", tags := [], createdAt := 5,
    expiresAt := 0, hasExpiry := false }

/-- A store with two records and no variant files at all: every file
deletion the sweep attempts fails with `ErrFileNotFound`. -/
def c10State : LocalState :=
  { basePath := "b", files := [],
    metadata := [("e", c10Exp), ("n", c10Fresh)] }

/-- A stored record used by the C8 witness. -/
def c8Info : ImageInfo :=
  { id := "x", filename := "x.png", storagePath := "original/landscape",
    size := 9, width := 4, height := 3, format := "png",
    orientation := "landscape", tags := ["old"], createdAt := 77,
    expiresAt := 0, hasExpiry := false }

/-- The one-record store of the C8 witness. -/
def c8State : LocalState :=
  { basePath := "b", files := [], metadata := [("x", c8Info)] }

/-- An expired record: `hasExpiry = true` with the nonzero
`expiresAt` 7. -/
def c2ExpInfo : ImageInfo :=
  { id := "a", filename := "f.png", storagePath := "original/landscape",
    size := 1, width := 3, height := 2, format := "png",
    orientation := "landscape", tags := [], createdAt := 5,
    expiresAt := 7, hasExpiry := true }

/-- A store holding `c2ExpInfo` and all three of its variant files. -/
def c2ExpState : LocalState :=
  { basePath := "b"
    files := [("b/original/landscape/a.png", "O"),
              ("b/webp/landscape/a.webp", "W"),
              ("b/avif/landscape/a.avif", "A")]
    metadata := [("a", c2ExpInfo)] }

/-- What a real generated id looks like (decimal nanoseconds): nonempty,
no dot, no slash.  Every id `generateID` produces satisfies this. -/
def goodKey (k : String) : Prop :=
  k ≠ "" ∧ '.' ∉ k.data ∧ '/' ∉ k.data

instance goodKey_decidable (k : String) : Decidable (goodKey k) := by
  unfold goodKey
  infer_instance

/-- A real orientation string. -/
def goodOrient (o : String) : Prop := o = "landscape" ∨ o = "portrait"

instance goodOrient_decidable (o : String) : Decidable (goodOrient o) := by
  unfold goodOrient
  infer_instance

/-- Well-formed backend state: distinct metadata keys and file paths,
and every stored record sits under a good key with a real
orientation — the invariant every state produced by the upload path
satisfies. -/
def wfState (s : LocalState) : Prop :=
  (s.metadata.map Prod.fst).Nodup ∧ (s.files.map Prod.fst).Nodup
  ∧ ∀ e ∈ s.metadata, goodKey e.1 ∧ goodOrient e.2.orientation

/-- The stored paths belonging to one item: anything matching its
original glob, plus its fixed webp and avif variant paths. -/
def ownPath (base id : String) (info : ImageInfo) (p : String) : Prop :=
  globCheck (origDirOf base info.orientation) id p = true
  ∨ p = variantPathOf base id WebP info.orientation
  ∨ p = variantPathOf base id AVIF info.orientation

/-- The characters a nonempty base path contributes to a joined path. -/
def bData (b : String) : List Char := if b = "" then [] else b.data ++ ['/']

/-- Any finite sequence of `CleanExpired` sweeps, at the given clock
readings. -/
def sweeps (s : LocalState) (times : List Nat) : LocalState :=
  times.foldl (fun st t => (cleanExpired st t).2) s

/-- The unexpired record of the C4 witness (`hasExpiry = false` with the
zero `expiresAt` the claim singles out). -/
def c4Info : ImageInfo :=
  { id := "x", filename := "x.png", storagePath := "original/landscape",
    size := 2, width := 5, height := 4, format := "png",
    orientation := "landscape", tags := [], createdAt := 9,
    expiresAt := 0, hasExpiry := false }

/-- The C4 witness store: the unexpired item with its original and webp
files present. -/
def c4State : LocalState :=
  { basePath := "b"
    files := [("b/original/landscape/x.png", "O"),
              ("b/webp/landscape/x.webp", "W")]
    metadata := [("x", c4Info)] }

/-! ### Association-list lemmas -/

theorem fsLookup_fsWrite_self {α : Type} (l : List (String × α)) (k : String)
    (v : α) : fsLookup (fsWrite l k v) k = some v := by
  induction l with
  | nil => simp [fsWrite, fsLookup]
  | cons qd rest ih =>
    obtain ⟨q, d⟩ := qd
    by_cases hq : q = k <;> simp [fsWrite, fsLookup, hq, ih]

theorem fsLookup_fsWrite_ne {α : Type} (l : List (String × α)) (k k2 : String)
    (v : α) (h : k2 ≠ k) : fsLookup (fsWrite l k v) k2 = fsLookup l k2 := by
  have hk : ¬k = k2 := fun hh => h hh.symm
  induction l with
  | nil => simp [fsWrite, fsLookup, hk]
  | cons qd rest ih =>
    obtain ⟨q, d⟩ := qd
    by_cases hq : q = k
    · subst hq
      simp [fsWrite, fsLookup, hk]
    · simp [fsWrite, fsLookup, hq, ih]

theorem fsWrite_fsWrite_self {α : Type} (l : List (String × α)) (k : String)
    (v w : α) : fsWrite (fsWrite l k v) k w = fsWrite l k w := by
  induction l with
  | nil => simp [fsWrite]
  | cons qd rest ih =>
    obtain ⟨q, d⟩ := qd
    by_cases hq : q = k <;> simp [fsWrite, hq, ih]

theorem fsLookup_of_mem_fst {α : Type} (l : List (String × α)) (k : String)
    (h : k ∈ l.map Prod.fst) : ∃ v, fsLookup l k = some v := by
  induction l with
  | nil => simp at h
  | cons qd rest ih =>
    obtain ⟨q, d⟩ := qd
    simp only [List.map_cons, List.mem_cons] at h
    by_cases hq : q = k
    · exact ⟨d, by simp [fsLookup, hq]⟩
    · rcases h with h | h
      · exact absurd h.symm hq
      · obtain ⟨v, hv⟩ := ih h
        exact ⟨v, by simp [fsLookup, hq, hv]⟩

theorem mem_of_fsLookup {α : Type} (l : List (String × α)) (k : String) (v : α)
    (h : fsLookup l k = some v) : (k, v) ∈ l := by
  induction l with
  | nil => simp [fsLookup] at h
  | cons qd rest ih =>
    obtain ⟨q, d⟩ := qd
    simp only [fsLookup] at h
    split at h
    · next hqk =>
      subst hqk
      obtain rfl : d = v := Option.some.inj h
      exact List.mem_cons_self _ _
    · exact List.mem_cons_of_mem _ (ih h)

theorem fsLookup_of_mem_nodup {α : Type} (l : List (String × α)) (k : String)
    (v : α) (hn : (l.map Prod.fst).Nodup) (h : (k, v) ∈ l) :
    fsLookup l k = some v := by
  induction l with
  | nil => simp at h
  | cons qd rest ih =>
    obtain ⟨q, d⟩ := qd
    simp only [List.map_cons, List.nodup_cons] at hn
    rcases List.mem_cons.mp h with h | h
    · injection h with h1 h2
      subst h1
      subst h2
      simp [fsLookup]
    · have hqk : ¬q = k := by
        intro hq
        subst hq
        exact hn.1 (List.mem_map_of_mem Prod.fst h)
      simp [fsLookup, hqk, ih hn.2 h]

theorem fsErase_sublist {α : Type} (l : List (String × α)) (k : String) :
    List.Sublist (fsErase l k) l := by
  induction l with
  | nil => simp [fsErase]
  | cons qd rest ih =>
    obtain ⟨q, d⟩ := qd
    by_cases hq : q = k
    · simp only [fsErase, if_pos hq]
      exact List.sublist_cons_self _ _
    · simpa [fsErase, hq] using ih.cons₂ (q, d)

theorem fsLookup_fsErase_ne {α : Type} (l : List (String × α)) (k k2 : String)
    (h : k2 ≠ k) : fsLookup (fsErase l k) k2 = fsLookup l k2 := by
  have hk : ¬k = k2 := fun hh => h hh.symm
  induction l with
  | nil => simp [fsErase]
  | cons qd rest ih =>
    obtain ⟨q, d⟩ := qd
    by_cases hq : q = k
    · subst hq
      simp [fsErase, fsLookup, hk]
    · simp only [fsErase, if_neg hq]
      by_cases hq2 : q = k2 <;> simp [fsLookup, hq2, ih]

theorem fsLookup_eq_none_iff {α : Type} (l : List (String × α)) (k : String) :
    fsLookup l k = none ↔ k ∉ l.map Prod.fst := by
  induction l with
  | nil => simp [fsLookup]
  | cons qd rest ih =>
    obtain ⟨q, d⟩ := qd
    by_cases hq : q = k
    · subst hq
      simp [fsLookup]
    · have hk : ¬k = q := fun hh => hq hh.symm
      simp [fsLookup, hq, ih, hk]

theorem notMem_fsErase_fst {α : Type} (l : List (String × α)) (k : String)
    (hn : (l.map Prod.fst).Nodup) : k ∉ (fsErase l k).map Prod.fst := by
  induction l with
  | nil => simp [fsErase]
  | cons qd rest ih =>
    obtain ⟨q, d⟩ := qd
    simp only [List.map_cons, List.nodup_cons] at hn
    by_cases hq : q = k
    · subst hq
      simpa [fsErase] using hn.1
    · simp only [fsErase, if_neg hq, List.map_cons, List.mem_cons]
      rintro (h | h)
      · exact hq h.symm
      · exact ih hn.2 h

theorem fsLookup_fsErase_self {α : Type} (l : List (String × α)) (k : String)
    (hn : (l.map Prod.fst).Nodup) : fsLookup (fsErase l k) k = none :=
  (fsLookup_eq_none_iff _ _).mpr (notMem_fsErase_fst l k hn)

theorem fsLookup_fsErase_none {α : Type} (l : List (String × α)) (k k2 : String)
    (h : fsLookup l k2 = none) : fsLookup (fsErase l k) k2 = none := by
  rw [fsLookup_eq_none_iff] at h ⊢
  intro hm
  exact h (((fsErase_sublist l k).map Prod.fst).mem hm)

/-! ### C5: SaveInfo/GetInfo round-trip and idempotent upsert -/

/-- C5: `GetInfo` after `SaveInfo` returns exactly the saved record;
saving the same record twice leaves the store as after one save; and
saving a different record under the same id replaces the previous one
(the whole backend state, files included, is that of a single save of the
new record). -/
theorem C5_saveInfo_getInfo_roundtrip_upsert (s : LocalState)
    (item : ImageInfo) :
    getInfo (saveInfo s item) item.id = .ok item
    ∧ saveInfo (saveInfo s item) item = saveInfo s item
    ∧ ∀ item2 : ImageInfo, item2.id = item.id →
        saveInfo (saveInfo s item) item2 = saveInfo s item2 := by
  refine ⟨?_, ?_, ?_⟩
  · simp [getInfo, saveInfo, fsLookup_fsWrite_self]
  · simp [saveInfo, fsWrite_fsWrite_self]
  · intro item2 h
    simp [saveInfo, h, fsWrite_fsWrite_self]

/-- Witness for C5 at a concrete record: the replacement hypothesis
`item2.id = item.id` is discharged on records sharing id `"a"`. -/
theorem C5_saveInfo_getInfo_roundtrip_upsert_witness :
    getInfo (saveInfo { basePath := "b", files := [], metadata := [] }
        { id := "a", filename := "f", storagePath := "p", size := 1,
          width := 2, height := 3, format := "png",
          orientation := "landscape", tags := ["t"], createdAt := 4,
          expiresAt := 0, hasExpiry := false })
      "a" = .ok
        { id := "a", filename := "f", storagePath := "p", size := 1,
          width := 2, height := 3, format := "png",
          orientation := "landscape", tags := ["t"], createdAt := 4,
          expiresAt := 0, hasExpiry := false } := by
  have h := C5_saveInfo_getInfo_roundtrip_upsert
    { basePath := "b", files := [], metadata := [] }
    { id := "a", filename := "f", storagePath := "p", size := 1,
      width := 2, height := 3, format := "png",
      orientation := "landscape", tags := ["t"], createdAt := 4,
      expiresAt := 0, hasExpiry := false }
  exact h.1

/-! ### C7: orientation classification in the converter -/

/-- C7: the description step classifies portrait exactly when height is
strictly greater than width, landscape otherwise; 100x50 is landscape,
50x100 is portrait, and the 100x100 tie resolves to landscape. -/
theorem C7_orientation_classification :
    (∀ (w h : Int) (f : String),
        ((getImageInfo w h f).orientation = "portrait" ↔ h > w)
        ∧ ((getImageInfo w h f).orientation = "landscape" ↔ ¬h > w))
    ∧ (getImageInfo 100 50 "png").orientation = "landscape"
    ∧ (getImageInfo 50 100 "png").orientation = "portrait"
    ∧ (getImageInfo 100 100 "png").orientation = "landscape" := by
  refine ⟨fun w h f => ?_, by decide, by decide, by decide⟩
  by_cases hc : h > w <;> simp [getImageInfo, hc]

/-! ### C9: GetURL is pure -/

/-- C9: `GetURL` reads nothing from the backend state: any two states
(receiver plus stored files and metadata) give the identical string for
identical arguments.  The result type (`String`, not `Except`) and the
absence of a state component in the result capture that it never fails
and never touches or modifies stored state. -/
theorem C9_getURL_pure (s1 s2 : LocalState) (id : String)
    (format : ImageFormat) (orientation : ImageOrientation) :
    getURL s1 id format orientation = getURL s2 id format orientation := rfl

/-! ### C6: NotFound conditions of Get and Delete -/

/-- C6: for `format = original`, `Get` and `Delete` fail with
`ErrFileNotFound` exactly when the glob `<id>.*` has zero matches in the
orientation directory; for a non-original format they fail with
`ErrFileNotFound` exactly when the variant file `<id>.<format>` is
absent. -/
theorem C6_get_delete_notfound (s : LocalState) (id : String)
    (format : ImageFormat) (orientation : ImageOrientation)
    (hfmt : format ≠ Original) :
    ((get s id Original orientation = .error .fileNotFound)
      ↔ origMatches s.files (origDirOf s.basePath orientation) id = [])
    ∧ ((delete s id Original orientation = .error .fileNotFound)
      ↔ origMatches s.files (origDirOf s.basePath orientation) id = [])
    ∧ ((get s id format orientation = .error .fileNotFound)
      ↔ fsLookup s.files (variantPathOf s.basePath id format orientation)
          = none)
    ∧ ((delete s id format orientation = .error .fileNotFound)
      ↔ fsLookup s.files (variantPathOf s.basePath id format orientation)
          = none) := by
  have hmem : ∀ p rest,
      origMatches s.files (origDirOf s.basePath orientation) id = p :: rest →
      ∃ v, fsLookup s.files p = some v := by
    intro p rest hm
    apply fsLookup_of_mem_fst
    have : p ∈ origMatches s.files (origDirOf s.basePath orientation) id := by
      rw [hm]; exact List.mem_cons_self _ _
    exact (List.mem_filter.mp this).1
  refine ⟨?_, ?_, ?_, ?_⟩
  · rw [get, if_pos rfl]
    cases hg : origMatches s.files (origDirOf s.basePath orientation) id with
    | nil => simp
    | cons p rest =>
      obtain ⟨v, hv⟩ := hmem p rest hg
      simp [hv]
  · rw [delete, if_pos rfl]
    cases hg : origMatches s.files (origDirOf s.basePath orientation) id with
    | nil => simp
    | cons p rest =>
      obtain ⟨v, hv⟩ := hmem p rest hg
      simp [osRemove, hv]
  · rw [get, if_neg hfmt]
    cases hv : fsLookup s.files (variantPathOf s.basePath id format orientation)
      with
    | none => simp
    | some c => simp [hv]
  · rw [delete, if_neg hfmt]
    cases hv : fsLookup s.files (variantPathOf s.basePath id format orientation)
      with
    | none => simp [osRemove, hv]
    | some c => simp [osRemove, hv]

/-- Witness for C6: instantiated at `sampleState` with the absent id
`"y"` and `format = webp`, discharging `webp ≠ original`. -/
theorem C6_get_delete_notfound_witness :
    WebP ≠ Original
    ∧ (((get sampleState "y" Original "landscape"
          = .error .fileNotFound)
        ↔ origMatches sampleState.files
            (origDirOf sampleState.basePath "landscape") "y" = [])
      ∧ ((delete sampleState "y" Original "landscape"
          = .error .fileNotFound)
        ↔ origMatches sampleState.files
            (origDirOf sampleState.basePath "landscape") "y" = [])
      ∧ ((get sampleState "y" WebP "landscape" = .error .fileNotFound)
        ↔ fsLookup sampleState.files
            (variantPathOf sampleState.basePath "y" WebP "landscape") = none)
      ∧ ((delete sampleState "y" WebP "landscape" = .error .fileNotFound)
        ↔ fsLookup sampleState.files
            (variantPathOf sampleState.basePath "y" WebP "landscape")
            = none)) :=
  ⟨by decide, C6_get_delete_notfound sampleState "y" WebP "landscape"
    (by decide)⟩

/-! ### C1: the WebP variant is saved under a fresh id, not the
original's id -/

/-- C1 fails on the code: `Save` generates a fresh id on every call
(there is no way to pass one in), and `UploadHandler` discards the id
returned by the WebP save.  After the upload the metadata record is
stored under the original's id `"1"`, the WebP bytes sit under the fresh
id `"2"`, and `Get` with the metadata id and `format = webp` fails with
`ErrFileNotFound`. -/
theorem C1_webp_saved_under_fresh_id :
    c1Upload.1 = "1"
    ∧ getInfo c1Upload.2 "1" = .ok
        { id := "1", filename := "photo.jpg",
          storagePath := "original/landscape", size := 4, width := 100,
          height := 50, format := "jpeg", orientation := "landscape",
          tags := [], createdAt := 999, expiresAt := 0, hasExpiry := false }
    ∧ get c1Upload.2 "1" WebP "landscape" = .error .fileNotFound
    ∧ fsLookup c1Upload.2.files "static/images/webp/landscape/2.webp"
        = some "WEBPBYTES" :=
  ⟨rfl, rfl, rfl, rfl⟩

/-! ### C2: a zero expiresAt is skipped by CleanExpired -/

/-- Counterexample to C2 as stated: for an item with `hasExpiry = true`
and the zero (unset) `expiresAt` — which is strictly before the current
time 100 — `CleanExpired` deletes nothing and returns count 0, because
the code additionally requires `!info.ExpiresAt.IsZero()`; `GetInfo`
still succeeds afterwards. -/
theorem C2_zero_expiry_not_deleted :
    c2Info.hasExpiry = true ∧ c2Info.expiresAt = 0 ∧ (0 : Nat) < 100
    ∧ cleanExpired c2State 100 = (0, c2State)
    ∧ getInfo (cleanExpired c2State 100).2 "a" = .ok c2Info :=
  ⟨rfl, rfl, by decide, rfl, rfl⟩

/-! ### C3: GetURL omits the original's file extension -/

/-- C3 fails on the code: the original is stored at
`static/images/original/landscape/1.jpg` (extension kept), but `GetURL`
for `format = original` formats the URL without any extension, so the
returned URL is not the public prefix plus the stored relative path.
For a non-original format the URL does match the stored path. -/
theorem C3_getURL_original_missing_extension :
    c3State.files = [("static/images/original/landscape/1.jpg", "BYTES")]
    ∧ getURL c3State "1" Original Landscape
        = "/static/images/original/landscape/1"
    ∧ getURL c3State "1" Original Landscape
        ≠ "/" ++ "static/images/original/landscape/1.jpg"
    ∧ getURL c3State "1" WebP Landscape
        = "/" ++ "static/images/webp/landscape/1.webp" :=
  ⟨rfl, rfl, by decide, by decide⟩

/-! ### The CleanExpired count -/

theorem delete_ok_metadata (s : LocalState) (id : String) (f : ImageFormat)
    (o : ImageOrientation) (s2 : LocalState) (h : delete s id f o = .ok s2) :
    s2.metadata = s.metadata := by
  unfold delete osRemove at h
  split at h
  · split at h
    · exact absurd h (by simp)
    · split at h
      · exact absurd h (by simp)
      · rw [← Except.ok.inj h]
  · split at h
    · exact absurd h (by simp)
    · rw [← Except.ok.inj h]

theorem deleteBE_metadata (s : LocalState) (id : String) (f : ImageFormat)
    (o : ImageOrientation) : (deleteBE s id f o).metadata = s.metadata := by
  unfold deleteBE
  cases hd : delete s id f o with
  | ok s2 => exact delete_ok_metadata s id f o s2 hd
  | error e => rfl

theorem deleteInfoBE_metadata_lookup_ne (s : LocalState) (i j : String)
    (h : j ≠ i) :
    fsLookup (deleteInfoBE s i).metadata j = fsLookup s.metadata j := by
  unfold deleteInfoBE deleteInfo
  cases hl : fsLookup s.metadata i with
  | none => simp [hl]
  | some info =>
    simp only [hl]
    exact fsLookup_fsErase_ne _ _ _ h

theorem cleanStep_metadata_lookup_ne (now : Nat) (acc : Nat × LocalState)
    (i j : String) (h : j ≠ i) :
    fsLookup (cleanStep now acc i).2.metadata j = fsLookup acc.2.metadata j := by
  unfold cleanStep
  cases hl : fsLookup acc.2.metadata i with
  | none => simp [hl]
  | some info =>
    by_cases hc : expiredCheck now info = true
    · simp only [hl, hc, if_true]
      rw [deleteInfoBE_metadata_lookup_ne _ _ _ h]
      rw [deleteBE_metadata, deleteBE_metadata, deleteBE_metadata]
    · simp [hl, hc]

theorem cleanStep_count (now : Nat) (c : Nat) (st : LocalState) (i : String) :
    (cleanStep now (c, st) i).1
      = c + (if expiredCheckOpt now (fsLookup st.metadata i) then 1 else 0) := by
  cases h : fsLookup st.metadata i with
  | none => simp [cleanStep, h, expiredCheckOpt]
  | some info =>
    by_cases hc : expiredCheck now info = true <;>
      simp [cleanStep, h, expiredCheckOpt, hc]

theorem cleanLoop_count (now : Nat) (ids : List String) :
    ∀ (c : Nat) (st : LocalState), ids.Nodup →
      (cleanLoop now ids (c, st)).1
        = c + (ids.filter
            (fun i => expiredCheckOpt now (fsLookup st.metadata i))).length := by
  induction ids with
  | nil =>
    intro c st _
    simp [cleanLoop]
  | cons i rest ih =>
    intro c st hnd
    rw [List.nodup_cons] at hnd
    have hacc : cleanLoop now (i :: rest) (c, st)
        = cleanLoop now rest (cleanStep now (c, st) i) := rfl
    have hs : cleanStep now (c, st) i
        = ((cleanStep now (c, st) i).1, (cleanStep now (c, st) i).2) := rfl
    rw [hacc, hs, ih (cleanStep now (c, st) i).1 (cleanStep now (c, st) i).2
      hnd.2]
    have hcongr : rest.filter
          (fun j => expiredCheckOpt now
            (fsLookup (cleanStep now (c, st) i).2.metadata j))
        = rest.filter (fun j => expiredCheckOpt now (fsLookup st.metadata j)) := by
      apply List.filter_congr
      intro j hj
      have hji : j ≠ i := fun hh => hnd.1 (hh ▸ hj)
      rw [cleanStep_metadata_lookup_ne now (c, st) i j hji]
    rw [hcongr, cleanStep_count now c st i, List.filter_cons]
    by_cases hq : expiredCheckOpt now (fsLookup st.metadata i) = true
    · rw [if_pos hq, if_pos hq]
      simp only [List.length_cons]
      omega
    · rw [if_neg hq, if_neg hq]
      omega

/-- Turning the per-file-name classification into a filter over the
metadata records themselves. -/
theorem filter_fst_lookup_length (now : Nat) (l : List (String × ImageInfo))
    (hnd : (l.map Prod.fst).Nodup) :
    ((l.map Prod.fst).filter
        (fun i => expiredCheckOpt now (fsLookup l i))).length
      = (l.filter (fun e => expiredCheck now e.2)).length := by
  induction l with
  | nil => rfl
  | cons qd rest ih =>
    obtain ⟨q, d⟩ := qd
    simp only [List.map_cons, List.nodup_cons] at hnd
    have hhead : fsLookup ((q, d) :: rest) q = some d := by simp [fsLookup]
    have htail : (rest.map Prod.fst).filter
          (fun i => expiredCheckOpt now (fsLookup ((q, d) :: rest) i))
        = (rest.map Prod.fst).filter
          (fun i => expiredCheckOpt now (fsLookup rest i)) := by
      apply List.filter_congr
      intro j hj
      have hjq : ¬q = j := by
        intro hh
        exact hnd.1 (hh ▸ hj)
      simp [fsLookup, hjq]
    simp only [List.map_cons, List.filter_cons]
    rw [hhead]
    have hsome : expiredCheckOpt now (some d) = expiredCheck now d := rfl
    rw [hsome, htail]
    by_cases hq : expiredCheck now d = true
    · simp [hq, ih hnd.2]
    · simp [hq, ih hnd.2]

/-- C10: the count returned by `CleanExpired` equals the number of
metadata records classified as expired, whether or not any of the three
variant deletions or the metadata deletion succeeded: every deletion
error is discarded and the sweep continues (the witness runs the sweep
on a store with NO variant files at all, so every file deletion fails,
and the count still counts the classified item). -/
theorem C10_count_equals_classified (s : LocalState) (now : Nat)
    (hnd : (s.metadata.map Prod.fst).Nodup) :
    (cleanExpired s now).1
      = (s.metadata.filter (fun e => expiredCheck now e.2)).length := by
  unfold cleanExpired
  rw [cleanLoop_count now _ 0 s hnd, Nat.zero_add]
  exact filter_fst_lookup_length now s.metadata hnd

/-- Witness for C10 at `c10State` and time 100: distinct keys, and the
returned count equals the length of the classified-expired filter (both
sides evaluate to 1 even though no file deletion succeeded). -/
theorem C10_count_equals_classified_witness :
    (c10State.metadata.map Prod.fst).Nodup
    ∧ ((cleanExpired c10State 100).1
        = (c10State.metadata.filter (fun e => expiredCheck 100 e.2)).length) :=
  ⟨by decide, C10_count_equals_classified c10State 100 (by decide)⟩

/-! ### C8: tag update mutates only the tags -/

/-- C8: for an existing id (whose stored record carries that id in its
`id` field, as every record written by the upload path does), the tag
update succeeds, the stored record afterwards has exactly the requested
tags, every other field — id, filename, storagePath, size, width,
height, format, orientation, createdAt, expiresAt, hasExpiry — keeps its
previous value (in particular createdAt is never modified), records of
other ids are untouched, and no file is touched. -/
theorem C8_updateTags_frame (s : LocalState) (id : String)
    (tags : List String) (old : ImageInfo)
    (hold : fsLookup s.metadata id = some old) (hid : old.id = id) :
    ∃ s2, updateTags s id tags = .ok s2
      ∧ fsLookup s2.metadata id = some { old with tags := tags }
      ∧ (∀ j, j ≠ id → fsLookup s2.metadata j = fsLookup s.metadata j)
      ∧ s2.files = s.files
      ∧ ({ old with tags := tags } : ImageInfo).tags = tags
      ∧ ({ old with tags := tags } : ImageInfo).id = old.id
      ∧ ({ old with tags := tags } : ImageInfo).filename = old.filename
      ∧ ({ old with tags := tags } : ImageInfo).storagePath = old.storagePath
      ∧ ({ old with tags := tags } : ImageInfo).size = old.size
      ∧ ({ old with tags := tags } : ImageInfo).width = old.width
      ∧ ({ old with tags := tags } : ImageInfo).height = old.height
      ∧ ({ old with tags := tags } : ImageInfo).format = old.format
      ∧ ({ old with tags := tags } : ImageInfo).orientation = old.orientation
      ∧ ({ old with tags := tags } : ImageInfo).createdAt = old.createdAt
      ∧ ({ old with tags := tags } : ImageInfo).expiresAt = old.expiresAt
      ∧ ({ old with tags := tags } : ImageInfo).hasExpiry = old.hasExpiry := by
  refine ⟨saveInfo s { old with tags := tags }, ?_, ?_, ?_, rfl, rfl, rfl,
    rfl, rfl, rfl, rfl, rfl, rfl, rfl, rfl, rfl, rfl⟩
  · simp [updateTags, getInfo, hold]
  · show fsLookup
        (fsWrite s.metadata ({ old with tags := tags } : ImageInfo).id
          { old with tags := tags }) id
      = some { old with tags := tags }
    rw [show ({ old with tags := tags } : ImageInfo).id = id from hid]
    exact fsLookup_fsWrite_self _ _ _
  · intro j hj
    show fsLookup
        (fsWrite s.metadata ({ old with tags := tags } : ImageInfo).id
          { old with tags := tags }) j
      = fsLookup s.metadata j
    rw [show ({ old with tags := tags } : ImageInfo).id = id from hid]
    exact fsLookup_fsWrite_ne _ _ _ _ hj

/-- Witness for C8: instantiated at `c8State`, updating the tags of id
`"x"` to `["a", "b"]`. -/
theorem C8_updateTags_frame_witness :
    fsLookup c8State.metadata "x" = some c8Info
    ∧ c8Info.id = "x"
    ∧ ∃ s2,
        updateTags c8State "x" ["a", "b"] = .ok s2
        ∧ fsLookup s2.metadata "x" = some { c8Info with tags := ["a", "b"] }
        ∧ (∀ j, j ≠ "x" →
            fsLookup s2.metadata j = fsLookup c8State.metadata j)
        ∧ s2.files = c8State.files
        ∧ ({ c8Info with tags := ["a", "b"] } : ImageInfo).tags = ["a", "b"]
        ∧ ({ c8Info with tags := ["a", "b"] } : ImageInfo).id = c8Info.id
        ∧ ({ c8Info with tags := ["a", "b"] } : ImageInfo).filename
            = c8Info.filename
        ∧ ({ c8Info with tags := ["a", "b"] } : ImageInfo).storagePath
            = c8Info.storagePath
        ∧ ({ c8Info with tags := ["a", "b"] } : ImageInfo).size = c8Info.size
        ∧ ({ c8Info with tags := ["a", "b"] } : ImageInfo).width = c8Info.width
        ∧ ({ c8Info with tags := ["a", "b"] } : ImageInfo).height
            = c8Info.height
        ∧ ({ c8Info with tags := ["a", "b"] } : ImageInfo).format
            = c8Info.format
        ∧ ({ c8Info with tags := ["a", "b"] } : ImageInfo).orientation
            = c8Info.orientation
        ∧ ({ c8Info with tags := ["a", "b"] } : ImageInfo).createdAt
            = c8Info.createdAt
        ∧ ({ c8Info with tags := ["a", "b"] } : ImageInfo).expiresAt
            = c8Info.expiresAt
        ∧ ({ c8Info with tags := ["a", "b"] } : ImageInfo).hasExpiry
            = c8Info.hasExpiry :=
  ⟨by simp [c8State, fsLookup], rfl,
    C8_updateTags_frame c8State "x" ["a", "b"] c8Info
      (by simp [c8State, fsLookup]) rfl⟩

/-! ### Shape lemmas for the sweep's best-effort deletions -/

theorem delete_ok_shape (s : LocalState) (id : String) (f : ImageFormat)
    (o : ImageOrientation) (s2 : LocalState) (h : delete s id f o = .ok s2) :
    ∃ p, s2 = { s with files := fsErase s.files p } := by
  unfold delete osRemove at h
  split at h
  · split at h
    · exact absurd h (by simp)
    · split at h
      · exact absurd h (by simp)
      · exact ⟨_, (Except.ok.inj h).symm⟩
  · split at h
    · exact absurd h (by simp)
    · exact ⟨_, (Except.ok.inj h).symm⟩

theorem deleteBE_files_sublist (s : LocalState) (id : String)
    (f : ImageFormat) (o : ImageOrientation) :
    List.Sublist (deleteBE s id f o).files s.files := by
  unfold deleteBE
  cases hd : delete s id f o with
  | ok s2 =>
    obtain ⟨p, rfl⟩ := delete_ok_shape s id f o s2 hd
    exact fsErase_sublist _ _
  | error e => exact List.Sublist.refl _

theorem deleteBE_basePath (s : LocalState) (id : String) (f : ImageFormat)
    (o : ImageOrientation) : (deleteBE s id f o).basePath = s.basePath := by
  unfold deleteBE
  cases hd : delete s id f o with
  | ok s2 =>
    obtain ⟨p, rfl⟩ := delete_ok_shape s id f o s2 hd
    rfl
  | error e => rfl

theorem deleteInfoBE_files (s : LocalState) (i : String) :
    (deleteInfoBE s i).files = s.files := by
  unfold deleteInfoBE deleteInfo
  cases hl : fsLookup s.metadata i <;> simp [hl]

theorem deleteInfoBE_basePath (s : LocalState) (i : String) :
    (deleteInfoBE s i).basePath = s.basePath := by
  unfold deleteInfoBE deleteInfo
  cases hl : fsLookup s.metadata i <;> simp [hl]

theorem deleteInfoBE_metadata_sublist (s : LocalState) (i : String) :
    List.Sublist (deleteInfoBE s i).metadata s.metadata := by
  unfold deleteInfoBE deleteInfo
  cases hl : fsLookup s.metadata i with
  | none =>
    simp only [hl]
    exact List.Sublist.refl _
  | some v =>
    simp only [hl]
    exact fsErase_sublist _ _

theorem deleteInfoBE_lookup_self (s : LocalState) (i : String)
    (hnd : (s.metadata.map Prod.fst).Nodup) :
    fsLookup (deleteInfoBE s i).metadata i = none := by
  unfold deleteInfoBE deleteInfo
  cases hl : fsLookup s.metadata i with
  | none => simp only [hl]
  | some v =>
    simp only [hl]
    exact fsLookup_fsErase_self _ _ hnd

/-- The first original-glob deletion leaves zero matches, provided at
most one stored file matched the glob beforehand. -/
theorem deleteBE_original_matches_nil (s : LocalState) (id : String)
    (orient : String) (hnd : (s.files.map Prod.fst).Nodup)
    (hone : (origMatches s.files (origDirOf s.basePath orient) id).length ≤ 1) :
    origMatches (deleteBE s id Original orient).files
      (origDirOf s.basePath orient) id = [] := by
  unfold deleteBE delete
  rw [if_pos rfl]
  cases hm : origMatches s.files (origDirOf s.basePath orient) id with
  | nil => exact hm
  | cons p rest =>
    cases rest with
    | cons q rest2 =>
      rw [hm] at hone
      simp at hone
    | nil =>
      have hpmem : p ∈ (s.files.map Prod.fst).filter
          (fun x => globCheck (origDirOf s.basePath orient) id x) := by
        have : p ∈ origMatches s.files (origDirOf s.basePath orient) id := by
          rw [hm]
          exact List.mem_cons_self _ _
        exact this
      obtain ⟨v, hv⟩ := fsLookup_of_mem_fst s.files p
        (List.mem_filter.mp hpmem).1
      unfold osRemove
      dsimp only
      rw [hv]
      dsimp only
      have hsub : List.Sublist
          (origMatches (fsErase s.files p) (origDirOf s.basePath orient) id)
          (origMatches s.files (origDirOf s.basePath orient) id) :=
        ((fsErase_sublist s.files p).map Prod.fst).filter _
      rw [hm] at hsub
      rcases List.sublist_singleton.mp hsub with h | h
      · exact h
      · exfalso
        have hp2 : p ∈ (fsErase s.files p).map Prod.fst := by
          have : p ∈ origMatches (fsErase s.files p)
              (origDirOf s.basePath orient) id := by
            rw [h]
            exact List.mem_cons_self _ _
          exact (List.mem_filter.mp this).1
        exact notMem_fsErase_fst s.files p hnd hp2

/-- After a best-effort non-original deletion the variant file is absent
(whether it was present and got erased, or was absent all along). -/
theorem deleteBE_variant_lookup_none (s : LocalState) (id : String)
    (fmt : ImageFormat) (orient : String) (hfmt : ¬fmt = Original)
    (hnd : (s.files.map Prod.fst).Nodup) :
    fsLookup (deleteBE s id fmt orient).files
      (variantPathOf s.basePath id fmt orient) = none := by
  unfold deleteBE delete
  rw [if_neg hfmt]
  cases hv : fsLookup s.files (variantPathOf s.basePath id fmt orient) with
  | none => simp only [osRemove, hv]
  | some c =>
    simp only [osRemove, hv]
    exact fsLookup_fsErase_self _ _ hnd

theorem fsLookup_none_of_sublist {α : Type} (l2 l1 : List (String × α))
    (hs : List.Sublist l2 l1) (k : String) (h : fsLookup l1 k = none) :
    fsLookup l2 k = none := by
  rw [fsLookup_eq_none_iff] at h ⊢
  exact fun hm => h ((hs.map Prod.fst).subset hm)

theorem origMatches_sublist (fs2 fs1 : List (String × String))
    (hs : List.Sublist fs2 fs1) (d i : String) :
    List.Sublist (origMatches fs2 d i) (origMatches fs1 d i) :=
  (hs.map Prod.fst).filter _

theorem origMatches_nil_of_sublist (fs2 fs1 : List (String × String))
    (hs : List.Sublist fs2 fs1) (d i : String)
    (h : origMatches fs1 d i = []) : origMatches fs2 d i = [] := by
  have hh := origMatches_sublist fs2 fs1 hs d i
  rw [h] at hh
  exact List.sublist_nil.mp hh

theorem cleanStep_files_sublist (now : Nat) (acc : Nat × LocalState)
    (i : String) :
    List.Sublist (cleanStep now acc i).2.files acc.2.files := by
  unfold cleanStep
  cases hl : fsLookup acc.2.metadata i with
  | none => exact List.Sublist.refl _
  | some info =>
    dsimp only
    by_cases hc : expiredCheck now info = true
    · rw [if_pos hc]
      rw [deleteInfoBE_files]
      exact ((deleteBE_files_sublist _ _ _ _).trans
        (deleteBE_files_sublist _ _ _ _)).trans (deleteBE_files_sublist _ _ _ _)
    · rw [if_neg hc]

theorem cleanStep_metadata_sublist (now : Nat) (acc : Nat × LocalState)
    (i : String) :
    List.Sublist (cleanStep now acc i).2.metadata acc.2.metadata := by
  unfold cleanStep
  cases hl : fsLookup acc.2.metadata i with
  | none => exact List.Sublist.refl _
  | some info =>
    dsimp only
    by_cases hc : expiredCheck now info = true
    · rw [if_pos hc]
      have hh := deleteInfoBE_metadata_sublist
        (deleteBE (deleteBE (deleteBE acc.2 i Original info.orientation)
          i WebP info.orientation) i AVIF info.orientation) i
      rw [deleteBE_metadata, deleteBE_metadata, deleteBE_metadata] at hh
      exact hh
    · rw [if_neg hc]

theorem cleanStep_basePath (now : Nat) (acc : Nat × LocalState) (i : String) :
    (cleanStep now acc i).2.basePath = acc.2.basePath := by
  unfold cleanStep
  cases hl : fsLookup acc.2.metadata i with
  | none => rfl
  | some info =>
    dsimp only
    by_cases hc : expiredCheck now info = true
    · rw [if_pos hc]
      rw [deleteInfoBE_basePath, deleteBE_basePath, deleteBE_basePath,
        deleteBE_basePath]
    · rw [if_neg hc]

theorem cleanStep_count_le (now : Nat) (acc : Nat × LocalState) (i : String) :
    acc.1 ≤ (cleanStep now acc i).1 := by
  unfold cleanStep
  cases hl : fsLookup acc.2.metadata i with
  | none => exact Nat.le.refl
  | some info =>
    dsimp only
    by_cases hc : expiredCheck now info = true
    · rw [if_pos hc]
      exact Nat.le_succ _
    · rw [if_neg hc]

theorem cleanLoop_files_sublist (now : Nat) (ids : List String) :
    ∀ acc : Nat × LocalState,
      List.Sublist (cleanLoop now ids acc).2.files acc.2.files := by
  induction ids with
  | nil => exact fun acc => List.Sublist.refl _
  | cons i rest ih =>
    intro acc
    exact (ih (cleanStep now acc i)).trans (cleanStep_files_sublist now acc i)

theorem cleanLoop_metadata_sublist (now : Nat) (ids : List String) :
    ∀ acc : Nat × LocalState,
      List.Sublist (cleanLoop now ids acc).2.metadata acc.2.metadata := by
  induction ids with
  | nil => exact fun acc => List.Sublist.refl _
  | cons i rest ih =>
    intro acc
    exact (ih (cleanStep now acc i)).trans
      (cleanStep_metadata_sublist now acc i)

theorem cleanLoop_basePath (now : Nat) (ids : List String) :
    ∀ acc : Nat × LocalState,
      (cleanLoop now ids acc).2.basePath = acc.2.basePath := by
  induction ids with
  | nil => exact fun acc => rfl
  | cons i rest ih =>
    intro acc
    rw [show cleanLoop now (i :: rest) acc
        = cleanLoop now rest (cleanStep now acc i) from rfl]
    rw [ih (cleanStep now acc i), cleanStep_basePath]

theorem cleanLoop_count_le (now : Nat) (ids : List String) :
    ∀ acc : Nat × LocalState, acc.1 ≤ (cleanLoop now ids acc).1 := by
  induction ids with
  | nil => exact fun acc => Nat.le.refl
  | cons i rest ih =>
    intro acc
    exact (cleanStep_count_le now acc i).trans (ih (cleanStep now acc i))

/-- Processing an expired record deletes the original match (unique by
hypothesis), leaves both fixed-path variants absent, erases the metadata
record, and increments the count. -/
theorem cleanStep_expired (now c : Nat) (st : LocalState) (id : String)
    (info : ImageInfo)
    (hndf : (st.files.map Prod.fst).Nodup)
    (hndm : (st.metadata.map Prod.fst).Nodup)
    (hlook : fsLookup st.metadata id = some info)
    (hc : expiredCheck now info = true)
    (hone : (origMatches st.files
        (origDirOf st.basePath info.orientation) id).length ≤ 1) :
    fsLookup (cleanStep now (c, st) id).2.metadata id = none
    ∧ origMatches (cleanStep now (c, st) id).2.files
        (origDirOf st.basePath info.orientation) id = []
    ∧ fsLookup (cleanStep now (c, st) id).2.files
        (variantPathOf st.basePath id WebP info.orientation) = none
    ∧ fsLookup (cleanStep now (c, st) id).2.files
        (variantPathOf st.basePath id AVIF info.orientation) = none
    ∧ (cleanStep now (c, st) id).1 = c + 1 := by
  obtain ⟨s1, hs1⟩ : ∃ x, deleteBE st id Original info.orientation = x :=
    ⟨_, rfl⟩
  obtain ⟨s2, hs2⟩ : ∃ x, deleteBE s1 id WebP info.orientation = x := ⟨_, rfl⟩
  obtain ⟨s3, hs3⟩ : ∃ x, deleteBE s2 id AVIF info.orientation = x := ⟨_, rfl⟩
  have hstep : cleanStep now (c, st) id = (c + 1, deleteInfoBE s3 id) := by
    simp [cleanStep, hlook, hc, hs1, hs2, hs3]
  have h1n : origMatches s1.files
      (origDirOf st.basePath info.orientation) id = [] := by
    have hh := deleteBE_original_matches_nil st id info.orientation hndf hone
    rwa [hs1] at hh
  have h1sub : List.Sublist s1.files st.files := by
    have hh := deleteBE_files_sublist st id Original info.orientation
    rwa [hs1] at hh
  have h1nd : (s1.files.map Prod.fst).Nodup :=
    hndf.sublist (h1sub.map Prod.fst)
  have h1bp : s1.basePath = st.basePath := by
    have hh := deleteBE_basePath st id Original info.orientation
    rwa [hs1] at hh
  have h2w : fsLookup s2.files
      (variantPathOf st.basePath id WebP info.orientation) = none := by
    have hh := deleteBE_variant_lookup_none s1 id WebP info.orientation
      (by decide) h1nd
    rw [hs2, h1bp] at hh
    exact hh
  have h2sub : List.Sublist s2.files s1.files := by
    have hh := deleteBE_files_sublist s1 id WebP info.orientation
    rwa [hs2] at hh
  have h2nd : (s2.files.map Prod.fst).Nodup :=
    h1nd.sublist (h2sub.map Prod.fst)
  have h2bp : s2.basePath = st.basePath := by
    have hh := deleteBE_basePath s1 id WebP info.orientation
    rw [hs2] at hh
    rw [hh, h1bp]
  have h2orig : origMatches s2.files
      (origDirOf st.basePath info.orientation) id = [] :=
    origMatches_nil_of_sublist _ _ h2sub _ _ h1n
  have h3a : fsLookup s3.files
      (variantPathOf st.basePath id AVIF info.orientation) = none := by
    have hh := deleteBE_variant_lookup_none s2 id AVIF info.orientation
      (by decide) h2nd
    rw [hs3, h2bp] at hh
    exact hh
  have h3sub : List.Sublist s3.files s2.files := by
    have hh := deleteBE_files_sublist s2 id AVIF info.orientation
    rwa [hs3] at hh
  have h3w : fsLookup s3.files
      (variantPathOf st.basePath id WebP info.orientation) = none :=
    fsLookup_none_of_sublist _ _ h3sub _ h2w
  have h3orig : origMatches s3.files
      (origDirOf st.basePath info.orientation) id = [] :=
    origMatches_nil_of_sublist _ _ h3sub _ _ h2orig
  have hmeta3 : s3.metadata = st.metadata := by
    rw [← hs3, ← hs2, ← hs1, deleteBE_metadata, deleteBE_metadata,
      deleteBE_metadata]
  rw [hstep]
  dsimp only
  refine ⟨?_, ?_, ?_, ?_, rfl⟩
  · exact deleteInfoBE_lookup_self s3 id (by rw [hmeta3]; exact hndm)
  · rw [deleteInfoBE_files]
    exact h3orig
  · rw [deleteInfoBE_files]
    exact h3w
  · rw [deleteInfoBE_files]
    exact h3a

/-- Running the whole sweep loop over a snapshot containing an expired
id removes its metadata record and all three variants and counts it. -/
theorem cleanLoop_expired_removes (now : Nat) (ids : List String) :
    ∀ (c : Nat) (st : LocalState) (id : String) (info : ImageInfo),
      ids.Nodup → id ∈ ids →
      (st.files.map Prod.fst).Nodup →
      (st.metadata.map Prod.fst).Nodup →
      fsLookup st.metadata id = some info →
      expiredCheck now info = true →
      (origMatches st.files
          (origDirOf st.basePath info.orientation) id).length ≤ 1 →
      fsLookup (cleanLoop now ids (c, st)).2.metadata id = none
      ∧ origMatches (cleanLoop now ids (c, st)).2.files
          (origDirOf st.basePath info.orientation) id = []
      ∧ fsLookup (cleanLoop now ids (c, st)).2.files
          (variantPathOf st.basePath id WebP info.orientation) = none
      ∧ fsLookup (cleanLoop now ids (c, st)).2.files
          (variantPathOf st.basePath id AVIF info.orientation) = none
      ∧ c + 1 ≤ (cleanLoop now ids (c, st)).1 := by
  induction ids with
  | nil =>
    intro c st id info _ hmem
    simp at hmem
  | cons j rest ih =>
    intro c st id info hnd hmem hndf hndm hlook hc hone
    rw [List.nodup_cons] at hnd
    have hloop : cleanLoop now (j :: rest) (c, st)
        = cleanLoop now rest (cleanStep now (c, st) j) := rfl
    have heta : cleanStep now (c, st) j
        = ((cleanStep now (c, st) j).1, (cleanStep now (c, st) j).2) := rfl
    by_cases hji : j = id
    · subst hji
      obtain ⟨e1, e2, e3, e4, e5⟩ :=
        cleanStep_expired now c st j info hndf hndm hlook hc hone
      have hmsub := cleanLoop_metadata_sublist now rest
        (cleanStep now (c, st) j)
      have hfsub := cleanLoop_files_sublist now rest (cleanStep now (c, st) j)
      have hcle := cleanLoop_count_le now rest (cleanStep now (c, st) j)
      rw [hloop]
      refine ⟨?_, ?_, ?_, ?_, ?_⟩
      · exact fsLookup_none_of_sublist _ _ hmsub _ e1
      · exact origMatches_nil_of_sublist _ _ hfsub _ _ e2
      · exact fsLookup_none_of_sublist _ _ hfsub _ e3
      · exact fsLookup_none_of_sublist _ _ hfsub _ e4
      · rw [e5] at hcle
        exact hcle
    · have hidj : id ≠ j := fun hh => hji hh.symm
      have hmem2 : id ∈ rest := by
        rcases List.mem_cons.mp hmem with h | h
        · exact absurd h.symm hji
        · exact h
      have hfsub := cleanStep_files_sublist now (c, st) j
      have hmsub := cleanStep_metadata_sublist now (c, st) j
      have hbp := cleanStep_basePath now (c, st) j
      have hlook2 : fsLookup (cleanStep now (c, st) j).2.metadata id
          = some info := by
        rw [cleanStep_metadata_lookup_ne now (c, st) j id hidj]
        exact hlook
      have hone2 : (origMatches (cleanStep now (c, st) j).2.files
          (origDirOf (cleanStep now (c, st) j).2.basePath info.orientation)
          id).length ≤ 1 := by
        rw [hbp]
        exact ((origMatches_sublist _ _ hfsub _ _).length_le).trans hone
      have hres := ih (cleanStep now (c, st) j).1 (cleanStep now (c, st) j).2
        id info hnd.2 hmem2
        (hndf.sublist (hfsub.map Prod.fst))
        (hndm.sublist (hmsub.map Prod.fst))
        hlook2 hc hone2
      rw [hbp] at hres
      rw [hloop, heta]
      refine ⟨hres.1, hres.2.1, hres.2.2.1, hres.2.2.2.1, ?_⟩
      have hcnt : c ≤ (cleanStep now (c, st) j).1 :=
        cleanStep_count_le now (c, st) j
      have := hres.2.2.2.2
      omega

/-- C2 (amended): an item with `hasExpiry = true` and a NONZERO
`expiresAt` strictly before `now` is fully removed by one `CleanExpired`
call — no stored file matches its original glob afterwards (assuming at
most one matched before, the normal layout), its fixed-path webp and
avif variant files are absent, the count registers it, and a subsequent
`GetInfo` fails with `ErrFileNotFound`.  An item with a zero `expiresAt`
is skipped even when `hasExpiry = true` (see the counterexample
theorem). -/
theorem C2_expired_item_fully_removed (s : LocalState) (now : Nat)
    (id : String) (info : ImageInfo)
    (hndm : (s.metadata.map Prod.fst).Nodup)
    (hndf : (s.files.map Prod.fst).Nodup)
    (hlook : fsLookup s.metadata id = some info)
    (hexp : info.hasExpiry = true)
    (hnz : info.expiresAt ≠ 0)
    (hlt : info.expiresAt < now)
    (hone : (origMatches s.files
        (origDirOf s.basePath info.orientation) id).length ≤ 1) :
    getInfo (cleanExpired s now).2 id = .error .fileNotFound
    ∧ origMatches (cleanExpired s now).2.files
        (origDirOf s.basePath info.orientation) id = []
    ∧ fsLookup (cleanExpired s now).2.files
        (variantPathOf s.basePath id WebP info.orientation) = none
    ∧ fsLookup (cleanExpired s now).2.files
        (variantPathOf s.basePath id AVIF info.orientation) = none
    ∧ 1 ≤ (cleanExpired s now).1 := by
  have hc : expiredCheck now info = true := by
    unfold expiredCheck
    rw [hexp]
    simp [hnz, hlt]
  have hmem : id ∈ s.metadata.map Prod.fst :=
    List.mem_map_of_mem Prod.fst (mem_of_fsLookup s.metadata id info hlook)
  obtain ⟨r1, r2, r3, r4, r5⟩ := cleanLoop_expired_removes now
    (s.metadata.map Prod.fst) 0 s id info hndm hmem hndf hndm hlook hc hone
  refine ⟨?_, r2, r3, r4, r5⟩
  unfold getInfo
  rw [show (cleanExpired s now).2
      = (cleanLoop now (s.metadata.map Prod.fst) (0, s)).2 from rfl]
  rw [r1]

/-- Witness for C2: a store holding one expired item (nonzero
`expiresAt` 7, swept at time 100) with all three variant files; its
hypotheses are discharged by computation. -/
theorem C2_expired_item_fully_removed_witness :
    ((c2ExpState.metadata.map Prod.fst).Nodup
      ∧ (c2ExpState.files.map Prod.fst).Nodup
      ∧ fsLookup c2ExpState.metadata "a" = some c2ExpInfo
      ∧ c2ExpInfo.hasExpiry = true
      ∧ c2ExpInfo.expiresAt ≠ 0
      ∧ c2ExpInfo.expiresAt < 100
      ∧ (origMatches c2ExpState.files
          (origDirOf c2ExpState.basePath c2ExpInfo.orientation) "a").length
            ≤ 1)
    ∧ (getInfo (cleanExpired c2ExpState 100).2 "a" = .error .fileNotFound
      ∧ origMatches (cleanExpired c2ExpState 100).2.files
          (origDirOf c2ExpState.basePath c2ExpInfo.orientation) "a" = []
      ∧ fsLookup (cleanExpired c2ExpState 100).2.files
          (variantPathOf c2ExpState.basePath "a" WebP c2ExpInfo.orientation)
            = none
      ∧ fsLookup (cleanExpired c2ExpState 100).2.files
          (variantPathOf c2ExpState.basePath "a" AVIF c2ExpInfo.orientation)
            = none
      ∧ 1 ≤ (cleanExpired c2ExpState 100).1) :=
  ⟨⟨by decide, by decide, by decide, by decide, by decide, by decide,
      by decide⟩,
    C2_expired_item_fully_removed c2ExpState 100 "a" c2ExpInfo (by decide)
      (by decide) (by decide) (by decide) (by decide) (by decide) (by decide)⟩

/-! ### Path separation: the sweep of other items cannot touch the
files of a different id -/

theorem data_ne_nil (x : String) (hx : x ≠ "") : x.data ≠ [] := by
  intro h
  apply hx
  have hh : x = String.mk x.data := rfl
  rw [hh, h]

theorem joinPath_data (b x : String) (hx : x ≠ "") :
    (joinPath b x).data = bData b ++ x.data := by
  unfold joinPath bData
  by_cases hb : b = ""
  · simp [hb]
  · rw [if_neg hb, if_neg hx, if_neg hb]
    simp [String.data_append]

theorem joinPath_ne_empty (b x : String) (hx : x ≠ "") :
    joinPath b x ≠ "" := by
  intro h
  have hd := congrArg String.data h
  rw [joinPath_data b x hx] at hd
  have hnil : bData b ++ x.data = [] := hd
  exact data_ne_nil x hx (List.append_eq_nil.mp hnil).2

theorem bData_of_ne (b : String) (hb : b ≠ "") :
    bData b = b.data ++ ['/'] := by
  unfold bData
  rw [if_neg hb]

theorem append_dot_ne_empty (a b : String) : a ++ "." ++ b ≠ "" := by
  intro h
  have hd := congrArg String.data h
  simp [String.data_append] at hd

theorem variantPathOf_data (base id f o : String) (hf : f ≠ "")
    (ho : o ≠ "") :
    (variantPathOf base id f o).data
      = bData base ++ (f.data ++ ('/' :: (o.data ++ ('/' :: (id.data
          ++ ('.' :: (strLower f).data)))))) := by
  unfold variantPathOf
  rw [joinPath_data _ _ (append_dot_ne_empty id (strLower f)),
    bData_of_ne _ (joinPath_ne_empty _ _ ho), joinPath_data _ _ ho,
    bData_of_ne _ (joinPath_ne_empty _ _ hf), joinPath_data _ _ hf]
  simp [String.data_append, List.append_assoc]

theorem globCheck_data (dir j p : String) (h : globCheck dir j p = true) :
    ∃ r, p.data = (joinPath dir j).data ++ ('.' :: r) ∧ '/' ∉ r := by
  unfold globCheck at h
  rw [Bool.and_eq_true] at h
  obtain ⟨h1, h2⟩ := h
  rw [List.isPrefixOf_iff_prefix] at h1
  obtain ⟨r, hr⟩ := h1
  refine ⟨r, ?_, ?_⟩
  · rw [← hr]
    simp [String.data_append]
  · rw [Bool.not_eq_true'] at h2
    have hdrop : p.data.drop (joinPath dir j ++ ".").data.length = r := by
      rw [← hr]
      exact List.drop_left _ _
    rw [hdrop] at h2
    intro hmem
    simp at h2
    exact h2 hmem

theorem globCheck_orig_data (base o j p : String) (ho : o ≠ "")
    (hj : j ≠ "") (h : globCheck (origDirOf base o) j p = true) :
    ∃ r, p.data = bData base ++ ("original".data ++ ('/' :: (o.data
        ++ ('/' :: (j.data ++ ('.' :: r)))))) ∧ '/' ∉ r := by
  obtain ⟨r, hp, hr⟩ := globCheck_data _ _ _ h
  refine ⟨r, ?_, hr⟩
  rw [hp]
  unfold origDirOf
  rw [joinPath_data _ _ hj,
    bData_of_ne _ (joinPath_ne_empty _ _ ho), joinPath_data _ _ ho,
    bData_of_ne _ (joinPath_ne_empty _ _ (by decide : ("original" : String) ≠ "")),
    joinPath_data _ _ (by decide : ("original" : String) ≠ "")]
  simp [String.data_append, List.append_assoc]

theorem eq_of_append_dot (a : List Char) :
    ∀ (b u v : List Char), '.' ∉ a → '.' ∉ b →
      a ++ ('.' :: u) = b ++ ('.' :: v) → a = b := by
  induction a with
  | nil =>
    intro b u v _ hb h
    cases b with
    | nil => rfl
    | cons d bs =>
      rw [List.nil_append, List.cons_append] at h
      injection h with h1 h2
      exact absurd (h1 ▸ List.mem_cons_self d bs) hb
  | cons c as ih =>
    intro b u v ha hb h
    cases b with
    | nil =>
      rw [List.nil_append, List.cons_append] at h
      injection h with h1 h2
      exact absurd (h1 ▸ List.mem_cons_self c as) ha
    | cons d bs =>
      rw [List.cons_append, List.cons_append] at h
      injection h with h1 h2
      subst h1
      rw [ih bs u v (fun hm => ha (List.mem_cons_of_mem _ hm))
        (fun hm => hb (List.mem_cons_of_mem _ hm)) h2]

theorem string_eq_of_data (a b : String) (h : a.data = b.data) : a = b := by
  cases a
  cases b
  exact congrArg String.mk h

theorem goodOrient_ne_empty (o : String) (h : goodOrient o) : o ≠ "" := by
  rcases h with h | h <;> subst h <;> decide

/-- Orientation-then-id path tails of distinct dot-free ids never
coincide. -/
theorem orient_id_tail_ne (oj oi j id : String) (t1 t2 : List Char)
    (hdj : '.' ∉ j.data) (hdi : '.' ∉ id.data) (hne : j ≠ id)
    (hoj : goodOrient oj) (hoi : goodOrient oi)
    (h : oj.data ++ ('/' :: (j.data ++ ('.' :: t1)))
      = oi.data ++ ('/' :: (id.data ++ ('.' :: t2)))) : False := by
  rcases hoj with hh1 | hh1 <;> rcases hoi with hh2 | hh2
  · subst hh1
    subst hh2
    have h2 := List.append_cancel_left h
    injection h2 with h3 h4
    exact hne (string_eq_of_data _ _ (eq_of_append_dot j.data id.data t1 t2
      hdj hdi h4))
  · subst hh1
    subst hh2
    simp at h
  · subst hh1
    subst hh2
    simp at h
  · subst hh1
    subst hh2
    have h2 := List.append_cancel_left h
    injection h2 with h3 h4
    exact hne (string_eq_of_data _ _ (eq_of_append_dot j.data id.data t1 t2
      hdj hdi h4))

/-- Glob matches of two distinct good ids are distinct paths. -/
theorem glob_glob_ne (base oj oi j id q p : String)
    (hgj : goodKey j) (hgi : goodKey id) (hne : j ≠ id)
    (hoj : goodOrient oj) (hoi : goodOrient oi)
    (hq : globCheck (origDirOf base oj) j q = true)
    (hp : globCheck (origDirOf base oi) id p = true) : q ≠ p := by
  intro he
  obtain ⟨r1, hq1, _⟩ := globCheck_orig_data base oj j q
    (goodOrient_ne_empty oj hoj) hgj.1 hq
  obtain ⟨r2, hp1, _⟩ := globCheck_orig_data base oi id p
    (goodOrient_ne_empty oi hoi) hgi.1 hp
  rw [he, hp1] at hq1
  have h1 := List.append_cancel_left hq1
  have h2 := List.append_cancel_left h1
  injection h2 with h3 h4
  exact orient_id_tail_ne oi oj id j r2 r1 hgi.2.1 hgj.2.1
    (fun hh => hne hh.symm) hoi hoj h4

/-- A glob match (under `original/`) is never a webp or avif variant
path. -/
theorem glob_variant_ne (base oj oi j id q : String) (f : String)
    (hj : j ≠ "") (hf : f = WebP ∨ f = AVIF)
    (hoj : goodOrient oj) (hoi : goodOrient oi)
    (hq : globCheck (origDirOf base oj) j q = true) :
    q ≠ variantPathOf base id f oi := by
  intro he
  obtain ⟨r1, hq1, _⟩ := globCheck_orig_data base oj j q
    (goodOrient_ne_empty oj hoj) hj hq
  have hfne : f ≠ "" := by rcases hf with h | h <;> subst h <;> decide
  have hv := variantPathOf_data base id f oi hfne (goodOrient_ne_empty oi hoi)
  rw [he, hv] at hq1
  have h1 := List.append_cancel_left hq1
  rcases hf with h | h <;> subst h <;> simp [WebP, AVIF] at h1

/-- Fixed variant paths of distinct good ids are distinct. -/
theorem variant_variant_ne (base oj oi j id : String) (f1 f2 : String)
    (hgj : goodKey j) (hgi : goodKey id) (hne : j ≠ id)
    (hf1 : f1 = WebP ∨ f1 = AVIF) (hf2 : f2 = WebP ∨ f2 = AVIF)
    (hoj : goodOrient oj) (hoi : goodOrient oi) :
    variantPathOf base j f1 oj ≠ variantPathOf base id f2 oi := by
  intro he
  have hf1ne : f1 ≠ "" := by rcases hf1 with h | h <;> subst h <;> decide
  have hf2ne : f2 ≠ "" := by rcases hf2 with h | h <;> subst h <;> decide
  have hd := congrArg String.data he
  rw [variantPathOf_data base j f1 oj hf1ne (goodOrient_ne_empty oj hoj),
    variantPathOf_data base id f2 oi hf2ne (goodOrient_ne_empty oi hoi)] at hd
  have h1 := List.append_cancel_left hd
  rcases hf1 with h | h <;> rcases hf2 with h2 | h2 <;> subst h <;> subst h2
  · have h3 := List.append_cancel_left h1
    injection h3 with h4 h5
    exact orient_id_tail_ne oj oi j id _ _ hgj.2.1 hgi.2.1 hne hoj hoi h5
  · simp [WebP, AVIF] at h1
  · simp [WebP, AVIF] at h1
  · have h3 := List.append_cancel_left h1
    injection h3 with h4 h5
    exact orient_id_tail_ne oj oi j id _ _ hgj.2.1 hgi.2.1 hne hoj hoi h5

/-- A foreign item's fixed variant path never coincides with any of our
item's paths. -/
theorem foreign_variant_ne_own (base : String) (j id : String)
    (infoj info : ImageInfo) (hgj : goodKey j) (hgi : goodKey id)
    (hne : j ≠ id) (hoj : goodOrient infoj.orientation)
    (hoi : goodOrient info.orientation) (f : String)
    (hf : f = WebP ∨ f = AVIF) (p : String)
    (hp : ownPath base id info p) :
    variantPathOf base j f infoj.orientation ≠ p := by
  rcases hp with hp | hp | hp
  · exact fun hh => (glob_variant_ne base info.orientation infoj.orientation
      id j p f hgi.1 hf hoi hoj hp) hh.symm
  · rw [hp]
    exact variant_variant_ne base infoj.orientation info.orientation j id
      f WebP hgj hgi hne hf (Or.inl rfl) hoj hoi
  · rw [hp]
    exact variant_variant_ne base infoj.orientation info.orientation j id
      f AVIF hgj hgi hne hf (Or.inr rfl) hoj hoi

/-- A foreign item's glob matches never coincide with any of our item's
paths. -/
theorem foreign_glob_ne_own (base : String) (j id : String)
    (infoj info : ImageInfo) (hgj : goodKey j) (hgi : goodKey id)
    (hne : j ≠ id) (hoj : goodOrient infoj.orientation)
    (hoi : goodOrient info.orientation) (p : String)
    (hp : ownPath base id info p) :
    ∀ q, globCheck (origDirOf base infoj.orientation) j q = true → q ≠ p := by
  intro q hq
  rcases hp with hp | hp | hp
  · exact glob_glob_ne base infoj.orientation info.orientation j id q p
      hgj hgi hne hoj hoi hq hp
  · rw [hp]
    exact glob_variant_ne base infoj.orientation info.orientation j id q
      WebP hgj.1 (Or.inl rfl) hoj hoi hq
  · rw [hp]
    exact glob_variant_ne base infoj.orientation info.orientation j id q
      AVIF hgj.1 (Or.inr rfl) hoj hoi hq

/-- A best-effort non-original deletion leaves every other path's
content unchanged. -/
theorem deleteBE_files_lookup_ne_variant (st : LocalState) (j : String)
    (f : ImageFormat) (o : String) (hf : ¬f = Original) (p : String)
    (hne : variantPathOf st.basePath j f o ≠ p) :
    fsLookup (deleteBE st j f o).files p = fsLookup st.files p := by
  unfold deleteBE delete
  rw [if_neg hf]
  unfold osRemove
  cases hv : fsLookup st.files (variantPathOf st.basePath j f o) with
  | none => rfl
  | some c =>
    dsimp only
    exact fsLookup_fsErase_ne _ _ _ (fun hh => hne hh.symm)

/-- A best-effort original deletion leaves every path outside the glob's
matches unchanged. -/
theorem deleteBE_files_lookup_glob_safe (st : LocalState) (j : String)
    (o : String) (p : String)
    (hne : ∀ q, globCheck (origDirOf st.basePath o) j q = true → q ≠ p) :
    fsLookup (deleteBE st j Original o).files p = fsLookup st.files p := by
  unfold deleteBE delete
  rw [if_pos rfl]
  cases hm : origMatches st.files (origDirOf st.basePath o) j with
  | nil => rfl
  | cons q rest =>
    have hq : globCheck (origDirOf st.basePath o) j q = true := by
      have hmem : q ∈ origMatches st.files (origDirOf st.basePath o) j := by
        rw [hm]
        exact List.mem_cons_self _ _
      exact (List.mem_filter.mp hmem).2
    dsimp only
    unfold osRemove
    cases hv : fsLookup st.files q with
    | none => rfl
    | some c =>
      dsimp only
      exact fsLookup_fsErase_ne _ _ _ (fun hh => hne q hq hh.symm)

/-- One sweep iteration never touches the metadata record or any stored
path of an item with `hasExpiry = false`. -/
theorem cleanStep_frame (now : Nat) (s : LocalState) (hwf : wfState s)
    (id : String) (info : ImageInfo)
    (hlook0 : fsLookup s.metadata id = some info)
    (hexp : info.hasExpiry = false)
    (c : Nat) (st : LocalState) (j : String)
    (hsub : List.Sublist st.metadata s.metadata)
    (hbp : st.basePath = s.basePath) :
    fsLookup (cleanStep now (c, st) j).2.metadata id = fsLookup st.metadata id
    ∧ ∀ p, ownPath s.basePath id info p →
        fsLookup (cleanStep now (c, st) j).2.files p = fsLookup st.files p := by
  have hgood := hwf.2.2 (id, info) (mem_of_fsLookup _ _ _ hlook0)
  cases hl : fsLookup st.metadata j with
  | none =>
    have hstep : cleanStep now (c, st) j = (c, st) := by
      simp [cleanStep, hl]
    rw [hstep]
    exact ⟨rfl, fun p _ => rfl⟩
  | some infoj =>
    have hmemj : (j, infoj) ∈ s.metadata :=
      hsub.subset (mem_of_fsLookup _ _ _ hl)
    have hgoodj := hwf.2.2 (j, infoj) hmemj
    by_cases hji : j = id
    · subst hji
      have hinfoj : infoj = info := by
        have h1 : fsLookup s.metadata j = some infoj :=
          fsLookup_of_mem_nodup _ _ _ hwf.1 hmemj
        rw [hlook0] at h1
        exact (Option.some.inj h1).symm
      subst hinfoj
      have hnc : ¬expiredCheck now infoj = true := by
        simp [expiredCheck, hexp]
      have hstep : cleanStep now (c, st) j = (c, st) := by
        simp [cleanStep, hl, hnc]
      rw [hstep]
      exact ⟨rfl, fun p _ => rfl⟩
    · by_cases hc : expiredCheck now infoj = true
      · obtain ⟨s1, hs1⟩ :
            ∃ x, deleteBE st j Original infoj.orientation = x := ⟨_, rfl⟩
        obtain ⟨s2, hs2⟩ :
            ∃ x, deleteBE s1 j WebP infoj.orientation = x := ⟨_, rfl⟩
        obtain ⟨s3, hs3⟩ :
            ∃ x, deleteBE s2 j AVIF infoj.orientation = x := ⟨_, rfl⟩
        have hstep : cleanStep now (c, st) j = (c + 1, deleteInfoBE s3 j) := by
          simp [cleanStep, hl, hc, hs1, hs2, hs3]
        have h1bp : s1.basePath = s.basePath := by
          rw [← hs1, deleteBE_basePath, hbp]
        have h2bp : s2.basePath = s.basePath := by
          rw [← hs2, deleteBE_basePath, h1bp]
        have h3meta : s3.metadata = st.metadata := by
          rw [← hs3, ← hs2, ← hs1, deleteBE_metadata, deleteBE_metadata,
            deleteBE_metadata]
        rw [hstep]
        constructor
        · dsimp only
          rw [deleteInfoBE_metadata_lookup_ne _ _ _ (fun hh => hji hh.symm),
            h3meta]
        · intro p hp
          dsimp only
          rw [deleteInfoBE_files]
          have hsafe3 : fsLookup s3.files p = fsLookup s2.files p := by
            rw [← hs3]
            apply deleteBE_files_lookup_ne_variant s2 j AVIF
              infoj.orientation (by decide) p
            rw [h2bp]
            exact foreign_variant_ne_own s.basePath j id infoj info
              hgoodj.1 hgood.1 hji hgoodj.2 hgood.2 AVIF (Or.inr rfl) p hp
          have hsafe2 : fsLookup s2.files p = fsLookup s1.files p := by
            rw [← hs2]
            apply deleteBE_files_lookup_ne_variant s1 j WebP
              infoj.orientation (by decide) p
            rw [h1bp]
            exact foreign_variant_ne_own s.basePath j id infoj info
              hgoodj.1 hgood.1 hji hgoodj.2 hgood.2 WebP (Or.inl rfl) p hp
          have hsafe1 : fsLookup s1.files p = fsLookup st.files p := by
            rw [← hs1]
            apply deleteBE_files_lookup_glob_safe st j infoj.orientation p
            rw [hbp]
            exact foreign_glob_ne_own s.basePath j id infoj info
              hgoodj.1 hgood.1 hji hgoodj.2 hgood.2 p hp
          rw [hsafe3, hsafe2, hsafe1]
      · have hstep : cleanStep now (c, st) j = (c, st) := by
          simp [cleanStep, hl, hc]
        rw [hstep]
        exact ⟨rfl, fun p _ => rfl⟩

/-- The whole sweep loop never touches an unexpired item. -/
theorem cleanLoop_frame (now : Nat) (s : LocalState) (hwf : wfState s)
    (id : String) (info : ImageInfo)
    (hlook0 : fsLookup s.metadata id = some info)
    (hexp : info.hasExpiry = false) (ids : List String) :
    ∀ (c : Nat) (st : LocalState),
      List.Sublist st.metadata s.metadata → st.basePath = s.basePath →
      fsLookup (cleanLoop now ids (c, st)).2.metadata id
          = fsLookup st.metadata id
      ∧ ∀ p, ownPath s.basePath id info p →
          fsLookup (cleanLoop now ids (c, st)).2.files p
            = fsLookup st.files p := by
  induction ids with
  | nil =>
    intro c st _ _
    exact ⟨rfl, fun p _ => rfl⟩
  | cons j rest ih =>
    intro c st hsub hbp
    obtain ⟨sf1, sf2⟩ := cleanStep_frame now s hwf id info hlook0 hexp
      c st j hsub hbp
    have hsub2 : List.Sublist (cleanStep now (c, st) j).2.metadata
        s.metadata := (cleanStep_metadata_sublist now (c, st) j).trans hsub
    have hbp2 : (cleanStep now (c, st) j).2.basePath = s.basePath := by
      rw [cleanStep_basePath]
      exact hbp
    have heta : cleanStep now (c, st) j
        = ((cleanStep now (c, st) j).1, (cleanStep now (c, st) j).2) := rfl
    have hloop : cleanLoop now (j :: rest) (c, st)
        = cleanLoop now rest (cleanStep now (c, st) j) := rfl
    obtain ⟨ih1, ih2⟩ := ih (cleanStep now (c, st) j).1
      (cleanStep now (c, st) j).2 hsub2 hbp2
    constructor
    · rw [hloop, heta, ih1, sf1]
    · intro p hp
      rw [hloop, heta, ih2 p hp, sf2 p hp]

/-- One `CleanExpired` sweep never touches an unexpired item. -/
theorem cleanExpired_frame (s : LocalState) (now : Nat) (id : String)
    (info : ImageInfo) (hwf : wfState s)
    (hlook : fsLookup s.metadata id = some info)
    (hexp : info.hasExpiry = false) :
    fsLookup (cleanExpired s now).2.metadata id = some info
    ∧ ∀ p, ownPath s.basePath id info p →
        fsLookup (cleanExpired s now).2.files p = fsLookup s.files p := by
  obtain ⟨h1, h2⟩ := cleanLoop_frame now s hwf id info hlook hexp
    (s.metadata.map Prod.fst) 0 s (List.Sublist.refl _) rfl
  exact ⟨by rw [show (cleanExpired s now).2
      = (cleanLoop now (s.metadata.map Prod.fst) (0, s)).2 from rfl, h1,
      hlook], h2⟩

/-- A sweep preserves well-formedness of the state. -/
theorem cleanExpired_wf (s : LocalState) (now : Nat) (hwf : wfState s) :
    wfState (cleanExpired s now).2 := by
  obtain ⟨h1, h2, h3⟩ := hwf
  have hms := cleanLoop_metadata_sublist now (s.metadata.map Prod.fst) (0, s)
  have hfs := cleanLoop_files_sublist now (s.metadata.map Prod.fst) (0, s)
  exact ⟨h1.sublist (hms.map Prod.fst), h2.sublist (hfs.map Prod.fst),
    fun e he => h3 e (hms.subset he)⟩

theorem cleanExpired_basePath (s : LocalState) (now : Nat) :
    (cleanExpired s now).2.basePath = s.basePath :=
  cleanLoop_basePath now (s.metadata.map Prod.fst) (0, s)

/-- C4: an item with `hasExpiry = false` is never deleted by expiry
sweeps — whatever its stored `expiresAt` (the theorem places no
constraint on it, zero included), after any number of `CleanExpired`
calls its metadata record is intact and every one of its stored paths
(original glob matches, webp and avif variant paths) holds exactly the
content it held before. -/
theorem C4_unexpired_items_untouched (s : LocalState) (id : String)
    (info : ImageInfo) (hwf : wfState s)
    (hlook : fsLookup s.metadata id = some info)
    (hexp : info.hasExpiry = false) (times : List Nat) :
    fsLookup (sweeps s times).metadata id = some info
    ∧ ∀ p, ownPath s.basePath id info p →
        fsLookup (sweeps s times).files p = fsLookup s.files p := by
  induction times generalizing s with
  | nil => exact ⟨hlook, fun p _ => rfl⟩
  | cons t rest ih =>
    obtain ⟨f1, f2⟩ := cleanExpired_frame s t id info hwf hlook hexp
    have hwf2 := cleanExpired_wf s t hwf
    have hbp2 : (cleanExpired s t).2.basePath = s.basePath :=
      cleanExpired_basePath s t
    obtain ⟨i1, i2⟩ := ih (cleanExpired s t).2 hwf2 f1
    have hsw : sweeps s (t :: rest) = sweeps (cleanExpired s t).2 rest := rfl
    constructor
    · rw [hsw, i1]
    · intro p hp
      have hp2 : ownPath (cleanExpired s t).2.basePath id info p := by
        rw [hbp2]
        exact hp
      rw [hsw, i2 p hp2, f2 p hp]

/-- Witness for C4: two consecutive sweeps (times 5 and 100) leave the
unexpired item's record and files untouched. -/
theorem C4_unexpired_items_untouched_witness :
    (wfState c4State ∧ fsLookup c4State.metadata "x" = some c4Info
      ∧ c4Info.hasExpiry = false)
    ∧ (fsLookup (sweeps c4State [5, 100]).metadata "x" = some c4Info
      ∧ ∀ p, ownPath c4State.basePath "x" c4Info p →
          fsLookup (sweeps c4State [5, 100]).files p
            = fsLookup c4State.files p) :=
  ⟨⟨⟨by decide, by decide, by decide⟩, by decide, by decide⟩,
    C4_unexpired_items_untouched c4State "x" c4Info
      ⟨by decide, by decide, by decide⟩ (by decide) (by decide) [5, 100]⟩

end InfiniteImages
